import Mathlib

/-!
Shallow embedding of the RealtimeAISuggestions backend
(`src/server/app/__main__.py`): versioned document store endpoints
(`get_document`, `save`, `get_versions`, `create_version`) and the two
websocket streaming channels (`websocket` at `/ws` and
`websocket_ai_sugg` at `/ws_ai_sugg`), together with the suggestion
stream assembler loop those channels share.
-/

/-! ## Python whitespace and `str.strip()` -/

/-- The ASCII whitespace characters stripped by Python's `str.strip()`:
space, tab, newline, carriage return, vertical tab, form feed.
(Python additionally strips some Unicode space code points; the inputs
relevant here are covered by the ASCII set.) -/
def isPyWS (c : Char) : Bool :=
  c = ' ' || c = '\t' || c = '\n' || c = '\r' || c = Char.ofNat 11 || c = Char.ofNat 12

/-- `str.strip()` on the character list: drop whitespace from the front,
then from the back. -/
def pyStripL (l : List Char) : List Char :=
  ((l.dropWhile isPyWS).reverse.dropWhile isPyWS).reverse

/-- `document.strip()` as used on lines 104 and 134 of `__main__.py`. -/
def pyStrip (s : String) : String :=
  ⟨pyStripL s.data⟩

/-! ## JSON string serialization (`websocket.send_json`)

`send_json` in text mode serializes its argument with `json.dumps`
under default settings (`ensure_ascii=True`): the string is wrapped in
double quotes, with `\` `"` and the short control escapes backslash
escaped, every other character outside printable ASCII `0x20`–`0x7e`
written as `\uXXXX` (as a surrogate pair above `0xFFFF`). -/

/-- Lowercase hexadecimal digit character for `d < 16`. -/
def hexDigit (d : Nat) : Char :=
  if d < 10 then Char.ofNat ('0'.toNat + d) else Char.ofNat ('a'.toNat + (d - 10))

/-- The four hex digits of `n % 0x10000`, most significant first. -/
def hex4 (n : Nat) : List Char :=
  [hexDigit (n / 4096 % 16), hexDigit (n / 256 % 16), hexDigit (n / 16 % 16), hexDigit (n % 16)]

/-- `\uXXXX` escape of the code point `n < 0x10000`. -/
def uEscape (n : Nat) : List Char :=
  '\\' :: 'u' :: hex4 n

/-- How `json.dumps` renders one character inside a string literal. -/
def encChar (c : Char) : List Char :=
  if c = '\\' then ['\\', '\\']
  else if c = '"' then ['\\', '"']
  else if c = Char.ofNat 8 then ['\\', 'b']
  else if c = Char.ofNat 12 then ['\\', 'f']
  else if c = '\n' then ['\\', 'n']
  else if c = '\r' then ['\\', 'r']
  else if c = '\t' then ['\\', 't']
  else if 0x20 ≤ c.toNat ∧ c.toNat ≤ 0x7e then [c]
  else if c.toNat < 0x10000 then uEscape c.toNat
  else
    uEscape (0xd800 + (c.toNat - 0x10000) / 0x400) ++
      uEscape (0xdc00 + (c.toNat - 0x10000) % 0x400)

/-- `json.dumps` applied to a Python `str`: the serialized text sent on
the wire by `websocket.send_json(response)`. -/
def jsonEncodeString (s : String) : String :=
  ⟨'"' :: s.data.flatMap encChar ++ ['"']⟩

/-! ## The suggestion stream assembler

Both websocket handlers run
`response=''; async for suggestion in suggestions: if suggestion: response+=suggestion`
over the fragment sequence produced by the reviewer, then send the
single assembled string. `if suggestion:` is Python string truthiness:
the fragment is appended exactly when it is non-empty. -/

/-- The accumulation loop over a completed fragment sequence. -/
def assemble (frags : List String) : String :=
  frags.foldl (fun response s => if s = "" then response else response ++ s) ""

/-- Specification-side description of the assembled result: the
concatenation of the non-empty fragments in arrival order. -/
def concatNonEmpty (frags : List String) : String :=
  (frags.filter (fun s => ¬ s = "")).foldr (· ++ ·) ""

/-! ## Channel sessions

One reviewer invocation (`ai.review_document` / `ai.incorporate_suggestions`)
is an async producer of fragments: it either completes, yielding a
finite fragment list, or raises mid-sequence after yielding a prefix.
The exception propagates out of the `async for` into the handler's
`except Exception` arm, so a failed run sends nothing. -/

/-- Outcome of iterating a reviewer's fragment stream to completion. -/
inductive Produced where
  | ok (frags : List String)
  | err (pre : List String)
deriving DecidableEq, Repr

/-- Outcome of one iteration of a handler's `while True` loop:
a single `send_json` payload followed by looping, a caught exception
followed by looping (`except Exception: continue`), or loop exit on
`WebSocketDisconnect` (`break`). -/
inductive IterOut where
  | sent (payload : String)
  | errContinue
  | closed
deriving DecidableEq, Repr

/-- The messages actually delivered to the client by one iteration. -/
def IterOut.messages : IterOut → List String
  | .sent payload => [payload]
  | _ => []

/-- One receive on the `/ws` channel: either the client disconnected
(`WebSocketDisconnect` from `receive_text`) or a text message arrived. -/
inductive InboundA where
  | disconnect
  | msg (document : String)
deriving DecidableEq, Repr

/-- The argument `websocket` passes to `ai.review_document`:
`paragraph = document.strip()` (line 104). -/
def wsAReviewerInput (document : String) : String :=
  pyStrip document

/-- One iteration of the `while True` loop of `websocket` (`/ws`),
lines 94–121 of `__main__.py`. -/
def wsIter (ai : String → Produced) : InboundA → IterOut
  | .disconnect => .closed
  | .msg document =>
    match ai (wsAReviewerInput document) with
    | .ok frags => .sent (jsonEncodeString (assemble frags))
    | .err _ => .errContinue

/-- One receive on the `/ws_ai_sugg` channel: a disconnect, a payload
on which `json.loads` or the `document`/`paragraph`/`suggestion` key
extraction (or `.strip()` on a non-string) raises, or a well-formed
triple of strings. -/
inductive InboundB where
  | disconnect
  | malformed
  | msg (document paragraph suggestion : String)
deriving DecidableEq, Repr

/-- The triple `websocket_ai_sugg` passes to
`ai.incorporate_suggestions(document, paragraph, suggestion)` after the
reassignment `paragraph = document.strip()` (lines 134–137). -/
def wsBReviewerInput (document paragraph suggestion : String) : String × String × String :=
  let par := pyStrip document
  (document, par, suggestion)

/-- One iteration of the `while True` loop of `websocket_ai_sugg`
(`/ws_ai_sugg`), lines 124–152 of `__main__.py`. -/
def wsAiSuggIter (ai : String × String × String → Produced) : InboundB → IterOut
  | .disconnect => .closed
  | .malformed => .errContinue
  | .msg document paragraph suggestion =>
    match ai (wsBReviewerInput document paragraph suggestion) with
    | .ok frags => .sent (jsonEncodeString (assemble frags))
    | .err _ => .errContinue

/-- The `while True` receive loop over a (finite prefix of a) sequence
of inbound events: each event yields one iteration outcome; `closed`
breaks the loop, everything else continues it. -/
def runSession {α : Type} (iter : α → IterOut) : List α → List IterOut
  | [] => []
  | inb :: rest =>
    if iter inb = .closed then [.closed]
    else iter inb :: runSession iter rest

/-! ## The version store

The store is the `documents` table: rows `(id, version, content)`.
`__main__.py` reads and writes it through SQLAlchemy; rows are modelled
as a list in insertion order. -/

/-- A row of `models.Document`. -/
structure DocumentRow where
  id : Int
  version : Int
  content : String
deriving DecidableEq, Repr

/-- The `documents` table state. -/
abbrev Store : Type := List DocumentRow

/-- Whether `r` is the row keyed by `(document_id, document_version)`. -/
def rowMatch (document_id document_version : Int) (r : DocumentRow) : Bool :=
  r.id == document_id && r.version == document_version

/-- `GET /document` (lines 41–46): `db.scalar(select(Document).where(id ==
document_id).where(version == document_version))` — the first matching
row, or `None`.

Modelled from the spec: `schemas.py` is absent from the sources, so the
response shape `DocumentRead` is taken from the spec, which says a read
of a missing pair is "surfaced to the caller as an empty/absent result";
the endpoint is modelled as returning the optional row. -/
def get_document (db : Store) (document_id document_version : Int) : Option DocumentRow :=
  db.find? (rowMatch document_id document_version)

/-- `POST /save` (lines 49–61): `UPDATE documents SET content = ... WHERE
id = document_id AND version = document_version`, then an echo of the
request. Matching zero rows is not an error. -/
def save (db : Store) (document_id document_version : Int) (content : String) :
    Store × (Int × String) :=
  (db.map (fun r => if rowMatch document_id document_version r then
      { r with content := content } else r),
   (document_id, content))

/-- One step of the `get_versions` accumulation loop (lines 71–78):
`if document_id not in all_versions: all_versions[document_id] = []`
then `all_versions[document_id].append(version)`. A Python dict keeps
keys in insertion order, so a fresh key is appended at the end. -/
def addVersion (acc : List (Int × List Int)) (id ver : Int) : List (Int × List Int) :=
  if acc.any (fun p => p.1 == id) then
    acc.map (fun p => if p.1 == id then (p.1, p.2 ++ [ver]) else p)
  else
    acc ++ [(id, [ver])]

/-- `GET /versions` (lines 63–80): select every `(id, version)` pair and
fold them into the `all_versions` dictionary. -/
def get_versions (db : Store) : List (Int × List Int) :=
  db.foldl (fun acc r => addVersion acc r.id r.version) []

/-- The database error surfaced when a commit violates the primary key. -/
inductive DBError where
  | Conflict
deriving DecidableEq, Repr

/-- `POST /create_version` (lines 82–90): `db.add(Document(id=document_id,
version=document_version, content=...)); db.commit()`.

Modelled from the spec: `models.py` is absent from the sources; per the
spec, `(document_id, version)` is the table's composite primary key, so
the commit of a duplicate pair fails with a uniqueness violation
(`Conflict`), rolls back (the store is unchanged), and the error
propagates to the caller rather than being swallowed. Otherwise the new
row is inserted and the request is echoed. -/
def create_version (db : Store) (document_id document_version : Int) (content : String) :
    Store × Except DBError (Int × String) :=
  if db.any (rowMatch document_id document_version) then
    (db, .error .Conflict)
  else
    (db ++ [⟨document_id, document_version, content⟩], .ok (document_id, content))

/-! ## Lemmas about whitespace stripping -/

theorem dropWhile_ws_append (w l : List Char) (hw : ∀ c ∈ w, isPyWS c) :
    (w ++ l).dropWhile isPyWS = l.dropWhile isPyWS := by
  induction w with
  | nil => rfl
  | cons c w ih =>
    have hc : isPyWS c := hw c (List.mem_cons_self c w)
    have hw' : ∀ c ∈ w, isPyWS c := fun c hcw => hw c (List.mem_cons_of_mem _ hcw)
    simp [List.dropWhile_cons, hc, ih hw']

theorem dropWhile_ws_eq_nil (w : List Char) (hw : ∀ c ∈ w, isPyWS c) :
    w.dropWhile isPyWS = [] :=
  List.dropWhile_eq_nil_iff.mpr hw

/-- Padding a character list with whitespace on both sides does not
change the result of stripping. -/
theorem pyStripL_pad (w₁ w₂ d : List Char)
    (h₁ : ∀ c ∈ w₁, isPyWS c) (h₂ : ∀ c ∈ w₂, isPyWS c) :
    pyStripL (w₁ ++ d ++ w₂) = pyStripL d := by
  unfold pyStripL
  rw [List.append_assoc, dropWhile_ws_append w₁ (d ++ w₂) h₁]
  rcases h : d.dropWhile isPyWS with _ | ⟨c, l⟩
  · rw [List.dropWhile_append, h]
    simp [dropWhile_ws_eq_nil w₂ h₂]
  · rw [List.dropWhile_append, h]
    simp only [List.isEmpty_cons, Bool.false_eq_true, if_false]
    rw [List.reverse_append, dropWhile_ws_append w₂.reverse (c :: l).reverse
      (fun ch hch => h₂ ch (List.mem_reverse.mp hch))]

/-- Padding a string with whitespace on both sides does not change the
result of `str.strip()`. -/
theorem pyStrip_pad (w₁ w₂ d : String)
    (h₁ : ∀ c ∈ w₁.data, isPyWS c) (h₂ : ∀ c ∈ w₂.data, isPyWS c) :
    pyStrip (w₁ ++ d ++ w₂) = pyStrip d := by
  unfold pyStrip
  rw [String.data_append, String.data_append]
  exact congrArg String.mk (pyStripL_pad w₁.data w₂.data d.data h₁ h₂)

/-! ## Lemmas about the assembler -/

theorem assemble_aux (frags : List String) (acc : String) :
    frags.foldl (fun response s => if s = "" then response else response ++ s) acc =
      acc ++ concatNonEmpty frags := by
  induction frags generalizing acc with
  | nil => simp [concatNonEmpty]
  | cons s rest ih =>
    by_cases hs : s = ""
    · simp [concatNonEmpty, List.filter_cons, hs, List.foldl_cons, ih]
    · simp only [List.foldl_cons, hs, if_false, ih]
      simp [concatNonEmpty, List.filter_cons, hs, String.append_assoc]

/-- The handlers' accumulation loop computes exactly the concatenation
of the non-empty fragments in arrival order. -/
theorem assemble_eq_concatNonEmpty (frags : List String) :
    assemble frags = concatNonEmpty frags := by
  have h := assemble_aux frags ""
  simpa [assemble] using h

/-! ## Lemmas about the session loops -/

/-- The `/ws` loop iteration breaks out only on a disconnect. -/
theorem wsIter_closed_iff (ai : String → Produced) (inb : InboundA) :
    wsIter ai inb = .closed ↔ inb = .disconnect := by
  cases inb with
  | disconnect => simp [wsIter]
  | msg document =>
    cases h : ai (wsAReviewerInput document) <;> simp [wsIter, h]

/-- The `/ws_ai_sugg` loop iteration breaks out only on a disconnect:
a malformed payload yields a caught exception, not a close. -/
theorem wsAiSuggIter_closed_iff (ai : String × String × String → Produced) (inb : InboundB) :
    wsAiSuggIter ai inb = .closed ↔ inb = .disconnect := by
  cases inb with
  | disconnect => simp [wsAiSuggIter]
  | malformed => simp [wsAiSuggIter]
  | msg document paragraph suggestion =>
    cases h : ai (wsBReviewerInput document paragraph suggestion) <;> simp [wsAiSuggIter, h]

/-- If no inbound event makes the iteration close, the loop processes
every event, producing exactly one outcome per event in order. -/
theorem runSession_map {α : Type} (iter : α → IterOut) (inbs : List α)
    (h : ∀ inb ∈ inbs, iter inb ≠ .closed) :
    runSession iter inbs = inbs.map iter := by
  induction inbs with
  | nil => rfl
  | cons inb rest ih =>
    have hne : iter inb ≠ .closed := h inb (List.mem_cons_self inb rest)
    simp [runSession, hne, ih (fun i hi => h i (List.mem_cons_of_mem _ hi))]

/-- The loop only ever terminates at an event whose iteration closes. -/
theorem runSession_closed_mem {α : Type} (iter : α → IterOut) (inbs : List α)
    (h : IterOut.closed ∈ runSession iter inbs) :
    ∃ inb ∈ inbs, iter inb = .closed := by
  induction inbs with
  | nil => simp [runSession] at h
  | cons inb rest ih =>
    by_cases hc : iter inb = .closed
    · exact ⟨inb, List.mem_cons_self inb rest, hc⟩
    · simp only [runSession, hc, if_false, List.mem_cons] at h
      rcases h with h | h
      · exact absurd h.symm hc
      · obtain ⟨i, hi, hic⟩ := ih h
        exact ⟨i, List.mem_cons_of_mem _ hi, hic⟩

/-! ## Lemmas about the JSON serialization -/

theorem encChar_length_pos (c : Char) : 1 ≤ (encChar c).length := by
  unfold encChar
  repeat' split
  all_goals simp [uEscape, hex4]

theorem flatMap_encChar_length (l : List Char) :
    l.length ≤ (l.flatMap encChar).length := by
  induction l with
  | nil => simp
  | cons c l ih =>
    rw [List.flatMap_cons, List.length_append, List.length_cons]
    have := encChar_length_pos c
    omega

/-- The serialized form is strictly longer than the string itself (the
two surrounding quotes), hence never equal to the raw assembled text. -/
theorem jsonEncodeString_ne_self (s : String) : jsonEncodeString s ≠ s := by
  intro h
  have hlen : (jsonEncodeString s).length = s.length := congrArg String.length h
  have : (jsonEncodeString s).length = (s.data.flatMap encChar).length + 2 := by
    show ('"' :: s.data.flatMap encChar ++ ['"']).length = _
    simp
  have hs : s.length = s.data.length := rfl
  have := flatMap_encChar_length s.data
  omega

/-! ## Lemmas about the version store -/

theorem rowMatch_iff (document_id document_version : Int) (r : DocumentRow) :
    rowMatch document_id document_version r = true ↔
      r.id = document_id ∧ r.version = document_version := by
  simp [rowMatch]

theorem get_document_eq_none_iff (db : Store) (document_id document_version : Int) :
    get_document db document_id document_version = none ↔
      ∀ r ∈ db, ¬(r.id = document_id ∧ r.version = document_version) := by
  simp [get_document, List.find?_eq_none, rowMatch_iff]

theorem store_any_iff (db : Store) (document_id document_version : Int) :
    db.any (rowMatch document_id document_version) = true ↔
      ∃ r ∈ db, r.id = document_id ∧ r.version = document_version := by
  simp [List.any_eq_true, rowMatch_iff]

theorem lookup_update_same (acc : List (Int × List Int)) (id v : Int) :
    (acc.map (fun p => if p.1 == id then (p.1, p.2 ++ [v]) else p)).lookup id
      = (acc.lookup id).map (fun l => l ++ [v]) := by
  induction acc with
  | nil => rfl
  | cons p acc ih =>
    obtain ⟨k, l⟩ := p
    by_cases hk : k = id
    · have h1 : (k == id) = true := beq_iff_eq.mpr hk
      have h2 : (id == k) = true := beq_iff_eq.mpr hk.symm
      simp only [List.map_cons, h1, if_true, List.lookup_cons, h2]
      rfl
    · have h1 : (k == id) = false := beq_eq_false_iff_ne.mpr hk
      have h2 : (id == k) = false := beq_eq_false_iff_ne.mpr (fun h => hk h.symm)
      simp only [List.map_cons, h1, Bool.false_eq_true, if_false, List.lookup_cons, h2, ih]

theorem lookup_update_ne (acc : List (Int × List Int)) (id id' v : Int) (h : id ≠ id') :
    (acc.map (fun p => if p.1 == id' then (p.1, p.2 ++ [v]) else p)).lookup id
      = acc.lookup id := by
  induction acc with
  | nil => rfl
  | cons p acc ih =>
    obtain ⟨k, l⟩ := p
    by_cases hk : k = id'
    · have h1 : (k == id') = true := beq_iff_eq.mpr hk
      have h2 : (id == k) = false := beq_eq_false_iff_ne.mpr (fun hik => h (hik.trans hk))
      simp only [List.map_cons, h1, if_true, List.lookup_cons, h2, ih]
    · have h1 : (k == id') = false := beq_eq_false_iff_ne.mpr hk
      by_cases hik : id = k
      · have h2 : (id == k) = true := beq_iff_eq.mpr hik
        simp only [List.map_cons, h1, Bool.false_eq_true, if_false, List.lookup_cons, h2]
      · have h2 : (id == k) = false := beq_eq_false_iff_ne.mpr hik
        simp only [List.map_cons, h1, Bool.false_eq_true, if_false, List.lookup_cons, h2, ih]

theorem any_key_iff_lookup_isSome (acc : List (Int × List Int)) (id : Int) :
    acc.any (fun p => p.1 == id) = true ↔ (acc.lookup id).isSome := by
  induction acc with
  | nil => simp [List.lookup]
  | cons p acc ih =>
    obtain ⟨k, l⟩ := p
    by_cases hk : k = id
    · have h1 : (k == id) = true := beq_iff_eq.mpr hk
      have h2 : (id == k) = true := beq_iff_eq.mpr hk.symm
      simp only [List.any_cons, h1, Bool.true_or, List.lookup_cons, h2, Option.isSome_some]
    · have h1 : (k == id) = false := beq_eq_false_iff_ne.mpr hk
      have h2 : (id == k) = false := beq_eq_false_iff_ne.mpr (fun h => hk h.symm)
      simp only [List.any_cons, h1, Bool.false_or, List.lookup_cons, h2, ih]

theorem lookup_addVersion_same (acc : List (Int × List Int)) (id v : Int) :
    (addVersion acc id v).lookup id = some ((acc.lookup id).getD [] ++ [v]) := by
  unfold addVersion
  by_cases h : acc.any (fun p => p.1 == id) = true
  · rw [if_pos h, lookup_update_same]
    obtain ⟨l, hl⟩ := Option.isSome_iff_exists.mp ((any_key_iff_lookup_isSome acc id).mp h)
    rw [hl]
    rfl
  · rw [if_neg h, List.lookup_append]
    have hnone : acc.lookup id = none := by
      rcases ho : acc.lookup id with _ | l
      · rfl
      · exact absurd ((any_key_iff_lookup_isSome acc id).mpr (by rw [ho]; rfl)) h
    rw [hnone]
    simp [List.lookup_cons]

theorem lookup_addVersion_ne (acc : List (Int × List Int)) (id id' v : Int) (h : id ≠ id') :
    (addVersion acc id' v).lookup id = acc.lookup id := by
  unfold addVersion
  by_cases ha : acc.any (fun p => p.1 == id') = true
  · rw [if_pos ha, lookup_update_ne acc id id' v h]
  · rw [if_neg ha, List.lookup_append]
    have h2 : (id == id') = false := beq_eq_false_iff_ne.mpr h
    simp [List.lookup_cons, h2]

theorem get_versions_append (db : Store) (r : DocumentRow) :
    get_versions (db ++ [r]) = addVersion (get_versions db) r.id r.version := by
  simp [get_versions, List.foldl_append]

/-- A document id has an entry in the `all_versions` dictionary exactly
when some row in the store carries that id. -/
theorem get_versions_isSome_iff (db : Store) (id : Int) :
    ((get_versions db).lookup id).isSome ↔ ∃ r ∈ db, r.id = id := by
  induction db using List.reverseRecOn with
  | nil => simp [get_versions, List.lookup]
  | append_singleton db r ih =>
    rw [get_versions_append]
    by_cases hid : id = r.id
    · subst hid
      rw [lookup_addVersion_same]
      simp only [Option.isSome_some, true_iff]
      exact ⟨r, List.mem_append_right _ (List.mem_singleton.mpr rfl), rfl⟩
    · rw [lookup_addVersion_ne _ _ _ _ hid, ih]
      constructor
      · rintro ⟨r', hr', h1⟩
        exact ⟨r', List.mem_append_left _ hr', h1⟩
      · rintro ⟨r', hr', h1⟩
        rcases List.mem_append.mp hr' with hm | hm
        · exact ⟨r', hm, h1⟩
        · rcases List.mem_singleton.mp hm
          exact absurd h1.symm hid

/-- A version number appears in a document id's entry of the
`all_versions` dictionary exactly when the store has a row with that id
and version. -/
theorem get_versions_mem_iff (db : Store) (id ver : Int) :
    ver ∈ ((get_versions db).lookup id).getD [] ↔
      ∃ r ∈ db, r.id = id ∧ r.version = ver := by
  induction db using List.reverseRecOn with
  | nil => simp [get_versions, List.lookup]
  | append_singleton db r ih =>
    rw [get_versions_append]
    by_cases hid : id = r.id
    · subst hid
      rw [lookup_addVersion_same]
      simp only [Option.getD_some, List.mem_append, List.mem_singleton, ih]
      constructor
      · rintro (⟨r', hr', h1, h2⟩ | rfl)
        · exact ⟨r', Or.inl hr', h1, h2⟩
        · exact ⟨r, Or.inr rfl, rfl, rfl⟩
      · rintro ⟨r', hm | hm, h1, h2⟩
        · exact Or.inl ⟨r', hm, h1, h2⟩
        · rcases hm
          exact Or.inr h2.symm
    · rw [lookup_addVersion_ne _ _ _ _ hid, ih]
      constructor
      · rintro ⟨r', hr', h1, h2⟩
        exact ⟨r', List.mem_append_left _ hr', h1, h2⟩
      · rintro ⟨r', hr', h1, h2⟩
        rcases List.mem_append.mp hr' with hm | hm
        · exact ⟨r', hm, h1, h2⟩
        · rcases List.mem_singleton.mp hm
          exact absurd h1.symm hid

/-- As long as no earlier event closes the loop, the loop reaches and
processes every later event: the iteration outcomes of a non-closing
prefix are followed by the run of the remainder. -/
theorem runSession_append {α : Type} (iter : α → IterOut) (pre rest : List α)
    (h : ∀ i ∈ pre, iter i ≠ .closed) :
    runSession iter (pre ++ rest) = pre.map iter ++ runSession iter rest := by
  induction pre with
  | nil => rfl
  | cons i pre ih =>
    have hi : iter i ≠ .closed := h i (List.mem_cons_self i pre)
    simp only [List.cons_append, runSession, hi, if_false, List.map_cons, List.cons_append]
    exact congrArg (List.cons (iter i)) (ih (fun j hj => h j (List.mem_cons_of_mem _ hj)))

/-- The outcome recorded for the event after a non-closing prefix is
exactly that event's own iteration outcome. -/
theorem runSession_getElem_after {α : Type} (iter : α → IterOut) (pre : List α) (x : α)
    (rest : List α) (h : ∀ i ∈ pre, iter i ≠ .closed) :
    (runSession iter (pre ++ x :: rest))[pre.length]? = some (iter x) := by
  rw [runSession_append iter pre (x :: rest) h]
  rw [List.getElem?_append_right (by simp)]
  simp only [List.length_map, Nat.sub_self]
  by_cases hx : iter x = .closed
  · simp [runSession, hx]
  · simp [runSession, hx]

/-! ## Claims -/

/-- C2: for every fragment sequence the reviewer completes, the handler
delivers exactly one message, whose content is the concatenation of the
non-empty fragments in arrival order (serialized by `send_json`); if the
producer fails before completion, the client receives nothing for that
iteration — on both channels. -/
theorem claim_C2 (aiA : String → Produced) (aiB : String × String × String → Produced)
    (document d p s : String) (frags pre : List String) :
    (aiA (wsAReviewerInput document) = .ok frags →
      (wsIter aiA (.msg document)).messages =
        [jsonEncodeString (concatNonEmpty frags)]) ∧
    (aiA (wsAReviewerInput document) = .err pre →
      (wsIter aiA (.msg document)).messages = []) ∧
    (aiB (wsBReviewerInput d p s) = .ok frags →
      (wsAiSuggIter aiB (.msg d p s)).messages =
        [jsonEncodeString (concatNonEmpty frags)]) ∧
    (aiB (wsBReviewerInput d p s) = .err pre →
      (wsAiSuggIter aiB (.msg d p s)).messages = []) := by
  refine ⟨fun h => ?_, fun h => ?_, fun h => ?_, fun h => ?_⟩ <;>
    simp [wsIter, wsAiSuggIter, h, IterOut.messages, assemble_eq_concatNonEmpty]

/-- C2 witness: the spec's example producer yielding
`["Sug", "gest", "ion A"]` results in the single assembled message. -/
theorem claim_C2_witness :
    (wsIter (fun _ => Produced.ok ["Sug", "gest", "ion A"]) (.msg "doc")).messages =
      [jsonEncodeString (concatNonEmpty ["Sug", "gest", "ion A"])] :=
  (claim_C2 (fun _ => Produced.ok ["Sug", "gest", "ion A"])
    (fun _ => Produced.ok []) "doc" "d" "p" "s" ["Sug", "gest", "ion A"] []).1 rfl

/-- C3: on both channels the loop exits only on a client disconnect;
with no disconnect in the inbound sequence every message is processed,
one outcome per message; and after any failed iterations a later
well-formed message is still processed and answered. -/
theorem claim_C3 (aiA : String → Produced) (aiB : String × String × String → Produced)
    (inbsA : List InboundA) (inbsB : List InboundB)
    (pre rest : List InboundB) (d p s : String) (frags : List String) :
    (IterOut.closed ∈ runSession (wsIter aiA) inbsA → InboundA.disconnect ∈ inbsA) ∧
    (InboundA.disconnect ∉ inbsA →
      runSession (wsIter aiA) inbsA = inbsA.map (wsIter aiA)) ∧
    (IterOut.closed ∈ runSession (wsAiSuggIter aiB) inbsB → InboundB.disconnect ∈ inbsB) ∧
    (InboundB.disconnect ∉ inbsB →
      runSession (wsAiSuggIter aiB) inbsB = inbsB.map (wsAiSuggIter aiB)) ∧
    (InboundB.disconnect ∉ pre →
      aiB (wsBReviewerInput d p s) = .ok frags →
      (runSession (wsAiSuggIter aiB) (pre ++ InboundB.msg d p s :: rest))[pre.length]? =
        some (.sent (jsonEncodeString (assemble frags)))) := by
  refine ⟨fun h => ?_, fun h => ?_, fun h => ?_, fun h => ?_, fun h hok => ?_⟩
  · obtain ⟨inb, hm, hc⟩ := runSession_closed_mem _ _ h
    exact ((wsIter_closed_iff aiA inb).mp hc) ▸ hm
  · exact runSession_map _ _ (fun inb hm hc =>
      h (((wsIter_closed_iff aiA inb).mp hc) ▸ hm))
  · obtain ⟨inb, hm, hc⟩ := runSession_closed_mem _ _ h
    exact ((wsAiSuggIter_closed_iff aiB inb).mp hc) ▸ hm
  · exact runSession_map _ _ (fun inb hm hc =>
      h (((wsAiSuggIter_closed_iff aiB inb).mp hc) ▸ hm))
  · rw [runSession_getElem_after _ _ _ _ (fun i hi hc =>
      h (((wsAiSuggIter_closed_iff aiB i).mp hc) ▸ hi))]
    simp [wsAiSuggIter, hok]

/-- C3 witness: a malformed payload followed by a well-formed one on
the incorporate-suggestions channel — the second message is still
answered. -/
theorem claim_C3_witness :
    (runSession (wsAiSuggIter (fun _ => Produced.ok ["x"]))
        ([InboundB.malformed] ++ InboundB.msg "d" "p" "s" :: []))[1]? =
      some (.sent (jsonEncodeString (assemble ["x"]))) :=
  (claim_C3 (fun _ => Produced.ok []) (fun _ => Produced.ok ["x"]) [] []
    [InboundB.malformed] [] "d" "p" "s" ["x"]).2.2.2.2 (by decide) rfl

/-- C7: on the incorporate-suggestions channel the paragraph actually
passed to the reviewer is the stripped document text — the
caller-supplied paragraph field is overwritten before the reviewer is
invoked, so the iteration result does not depend on it. -/
theorem claim_C7 (ai : String × String × String → Produced)
    (document paragraph other suggestion : String) :
    wsBReviewerInput document paragraph suggestion =
      (document, pyStrip document, suggestion) ∧
    wsAiSuggIter ai (.msg document paragraph suggestion) =
      wsAiSuggIter ai (.msg document other suggestion) :=
  ⟨rfl, rfl⟩

/-- C9: on the review channel the text passed to the reviewer is the
received document with leading and trailing whitespace stripped, so two
messages differing only in leading/trailing whitespace produce the same
reviewer input. -/
theorem claim_C9 (document w₁ w₂ w₃ w₄ : String)
    (h₁ : ∀ c ∈ w₁.data, isPyWS c) (h₂ : ∀ c ∈ w₂.data, isPyWS c)
    (h₃ : ∀ c ∈ w₃.data, isPyWS c) (h₄ : ∀ c ∈ w₄.data, isPyWS c) :
    wsAReviewerInput document = pyStrip document ∧
    wsAReviewerInput (w₁ ++ document ++ w₂) = wsAReviewerInput (w₃ ++ document ++ w₄) := by
  refine ⟨rfl, ?_⟩
  show pyStrip _ = pyStrip _
  rw [pyStrip_pad w₁ w₂ document h₁ h₂, pyStrip_pad w₃ w₄ document h₃ h₄]

/-- C9 witness: two concrete paddings of the same document yield the
same reviewer input. -/
theorem claim_C9_witness :
    wsAReviewerInput ("  " ++ "hello" ++ "\n") = wsAReviewerInput ("" ++ "hello" ++ "\t ") :=
  (claim_C9 "hello" "  " "\n" "" "\t " (by decide) (by decide) (by decide) (by decide)).2

/-- C10: on both channels the assembled string is delivered as its JSON
serialization — `send_json` wraps it in double quotes with JSON string
escaping — which is never the raw assembled text itself. -/
theorem claim_C10 (aiA : String → Produced) (aiB : String × String × String → Produced)
    (document d p s : String) (frags : List String) :
    (aiA (wsAReviewerInput document) = .ok frags →
      wsIter aiA (.msg document) = .sent (jsonEncodeString (assemble frags))) ∧
    (aiB (wsBReviewerInput d p s) = .ok frags →
      wsAiSuggIter aiB (.msg d p s) = .sent (jsonEncodeString (assemble frags))) ∧
    (∀ response : String, jsonEncodeString response ≠ response) := by
  refine ⟨fun h => ?_, fun h => ?_, jsonEncodeString_ne_self⟩ <;>
    simp [wsIter, wsAiSuggIter, h]

/-- C10 witness: a concrete completed stream is sent as its JSON
serialization. -/
theorem claim_C10_witness :
    wsIter (fun _ => Produced.ok ["hi"]) (.msg "doc") =
      .sent (jsonEncodeString (assemble ["hi"])) :=
  (claim_C10 (fun _ => Produced.ok ["hi"]) (fun _ => Produced.ok [])
    "doc" "d" "p" "s" ["hi"]).1 rfl

/-- C1: a second `create_version` call with an `(id, version)` pair the
first call just created fails with `Conflict`, leaves the store
untouched, and the stored content for the pair remains the first call's
value. -/
theorem claim_C1 (db : Store) (document_id document_version : Int) (c₁ c₂ : String)
    (habs : get_document db document_id document_version = none) :
    (create_version db document_id document_version c₁).2 = .ok (document_id, c₁) ∧
    (create_version (create_version db document_id document_version c₁).1
        document_id document_version c₂).2 = .error .Conflict ∧
    (create_version (create_version db document_id document_version c₁).1
        document_id document_version c₂).1 =
      (create_version db document_id document_version c₁).1 ∧
    (get_document
        (create_version (create_version db document_id document_version c₁).1
          document_id document_version c₂).1
        document_id document_version).map DocumentRow.content = some c₁ := by
  have hno := (get_document_eq_none_iff db document_id document_version).mp habs
  have hany : ¬ db.any (rowMatch document_id document_version) = true := by
    intro h
    obtain ⟨r, hr, hm⟩ := (store_any_iff db document_id document_version).mp h
    exact hno r hr hm
  have hrow : rowMatch document_id document_version
      ⟨document_id, document_version, c₁⟩ = true := by
    simp [rowMatch]
  have h1 : create_version db document_id document_version c₁ =
      (db ++ [⟨document_id, document_version, c₁⟩], .ok (document_id, c₁)) := by
    unfold create_version
    rw [if_neg hany]
  rw [h1]
  have hany2 : (db ++ [⟨document_id, document_version, c₁⟩] : Store).any
      (rowMatch document_id document_version) = true := by
    rw [List.any_append]
    simp [hrow]
  have h2 : create_version (db ++ [⟨document_id, document_version, c₁⟩])
      document_id document_version c₂ =
      (db ++ [⟨document_id, document_version, c₁⟩], .error .Conflict) := by
    unfold create_version
    rw [if_pos hany2]
  rw [h2]
  refine ⟨rfl, rfl, rfl, ?_⟩
  unfold get_document
  rw [List.find?_append]
  have hfind : db.find? (rowMatch document_id document_version) = none := by
    rw [get_document] at habs
    exact habs
  rw [hfind]
  simp [List.find?_cons, hrow]

/-- C1 witness: creating `(1, 1)` twice on the empty store — the second
call is rejected and content stays at the first value. -/
theorem claim_C1_witness :
    (create_version ([] : Store) 1 1 "first").2 = .ok (1, "first") ∧
    (create_version (create_version ([] : Store) 1 1 "first").1 1 1 "second").2 =
      .error .Conflict ∧
    (create_version (create_version ([] : Store) 1 1 "first").1 1 1 "second").1 =
      (create_version ([] : Store) 1 1 "first").1 ∧
    (get_document
        (create_version (create_version ([] : Store) 1 1 "first").1 1 1 "second").1
        1 1).map DocumentRow.content = some "first" :=
  claim_C1 [] 1 1 "first" "second" rfl

/-- C4: a read of an `(id, version)` pair with no matching row returns
the absent result, not a row. -/
theorem claim_C4 (db : Store) (document_id document_version : Int)
    (h : ∀ r ∈ db, ¬(r.id = document_id ∧ r.version = document_version)) :
    get_document db document_id document_version = none :=
  (get_document_eq_none_iff db document_id document_version).mpr h

/-- C4 witness: reading `(1, 2)` from a store holding only `(1, 1)`. -/
theorem claim_C4_witness :
    get_document [⟨1, 1, "a"⟩] 1 2 = none :=
  claim_C4 [⟨1, 1, "a"⟩] 1 2 (by decide)

/-- C5: for positive `document_id` and `document_version` absent from
the store, `create_version` succeeds and a following `get_document` on
the same pair returns exactly the created content. -/
theorem claim_C5 (db : Store) (document_id document_version : Int) (content : String)
    (hid : 0 < document_id) (hver : 0 < document_version)
    (habs : get_document db document_id document_version = none) :
    (create_version db document_id document_version content).2 = .ok (document_id, content) ∧
    (get_document (create_version db document_id document_version content).1
        document_id document_version).map DocumentRow.content = some content := by
  have hno := (get_document_eq_none_iff db document_id document_version).mp habs
  have hany : ¬ db.any (rowMatch document_id document_version) = true := by
    intro h
    obtain ⟨r, hr, hm⟩ := (store_any_iff db document_id document_version).mp h
    exact hno r hr hm
  have hrow : rowMatch document_id document_version
      ⟨document_id, document_version, content⟩ = true := by
    simp [rowMatch]
  have h1 : create_version db document_id document_version content =
      (db ++ [⟨document_id, document_version, content⟩], .ok (document_id, content)) := by
    unfold create_version
    rw [if_neg hany]
  rw [h1]
  refine ⟨rfl, ?_⟩
  unfold get_document
  rw [List.find?_append]
  have hfind : db.find? (rowMatch document_id document_version) = none := by
    rw [get_document] at habs
    exact habs
  rw [hfind]
  simp [List.find?_cons, hrow]

/-- C5 witness: create `(3, 4)` with content `"body"` on a one-row
store and read it back. -/
theorem claim_C5_witness :
    (create_version [⟨1, 1, "a"⟩] 3 4 "body").2 = .ok (3, "body") ∧
    (get_document (create_version [⟨1, 1, "a"⟩] 3 4 "body").1 3 4).map
      DocumentRow.content = some "body" :=
  claim_C5 [⟨1, 1, "a"⟩] 3 4 "body" (by decide) (by decide) rfl

/-- C6: `save` on an `(id, version)` pair with no matching row is a
successful no-op: it creates no row, reports no error (the echo is still
returned), and leaves the store unchanged. -/
theorem claim_C6 (db : Store) (document_id document_version : Int) (content : String)
    (h : ∀ r ∈ db, ¬(r.id = document_id ∧ r.version = document_version)) :
    save db document_id document_version content = (db, (document_id, content)) := by
  unfold save
  have hmap : db.map (fun r => if rowMatch document_id document_version r then
      { r with content := content } else r) = db := by
    have hcong : db.map (fun r => if rowMatch document_id document_version r then
        { r with content := content } else r) = db.map id := by
      apply List.map_congr_left
      intro r hr
      have : ¬ rowMatch document_id document_version r = true := fun hm =>
        h r hr ((rowMatch_iff document_id document_version r).mp hm)
      rw [if_neg this]
      rfl
    rw [hcong, List.map_id]
  rw [hmap]

/-- C6 witness: saving to the absent pair `(9, 9)` leaves a concrete
store unchanged. -/
theorem claim_C6_witness :
    save [⟨1, 1, "a"⟩, ⟨2, 1, "b"⟩] 9 9 "new" =
      ([⟨1, 1, "a"⟩, ⟨2, 1, "b"⟩], (9, "new")) :=
  claim_C6 [⟨1, 1, "a"⟩, ⟨2, 1, "b"⟩] 9 9 "new" (by decide)

/-- C8: the `all_versions` mapping has an entry exactly for the
document ids present in the store, and the entry for an id contains a
version number exactly when a row with that id and version exists. -/
theorem claim_C8 (db : Store) (id : Int) :
    (((get_versions db).lookup id).isSome ↔ ∃ r ∈ db, r.id = id) ∧
    ∀ ver : Int, ver ∈ ((get_versions db).lookup id).getD [] ↔
      ∃ r ∈ db, r.id = id ∧ r.version = ver :=
  ⟨get_versions_isSome_iff db id, fun ver => get_versions_mem_iff db id ver⟩

/-- C8 witness: after creating versions 1, 2, 3 for document id 2, the
entry for key 2 holds exactly those versions (4 is absent), and id 7
has no entry. -/
theorem claim_C8_witness :
    (1 ∈ ((get_versions [⟨2, 1, "a"⟩, ⟨2, 2, "a"⟩, ⟨2, 3, "a"⟩]).lookup 2).getD [] ∧
     2 ∈ ((get_versions [⟨2, 1, "a"⟩, ⟨2, 2, "a"⟩, ⟨2, 3, "a"⟩]).lookup 2).getD [] ∧
     3 ∈ ((get_versions [⟨2, 1, "a"⟩, ⟨2, 2, "a"⟩, ⟨2, 3, "a"⟩]).lookup 2).getD []) ∧
    ¬ 4 ∈ ((get_versions [⟨2, 1, "a"⟩, ⟨2, 2, "a"⟩, ⟨2, 3, "a"⟩]).lookup 2).getD [] ∧
    ¬ ((get_versions [⟨2, 1, "a"⟩, ⟨2, 2, "a"⟩, ⟨2, 3, "a"⟩]).lookup 7).isSome := by
  refine ⟨⟨?_, ?_, ?_⟩, ?_, ?_⟩
  · exact ((claim_C8 [⟨2, 1, "a"⟩, ⟨2, 2, "a"⟩, ⟨2, 3, "a"⟩] 2).2 1).mpr
      ⟨⟨2, 1, "a"⟩, by decide, rfl, rfl⟩
  · exact ((claim_C8 [⟨2, 1, "a"⟩, ⟨2, 2, "a"⟩, ⟨2, 3, "a"⟩] 2).2 2).mpr
      ⟨⟨2, 2, "a"⟩, by decide, rfl, rfl⟩
  · exact ((claim_C8 [⟨2, 1, "a"⟩, ⟨2, 2, "a"⟩, ⟨2, 3, "a"⟩] 2).2 3).mpr
      ⟨⟨2, 3, "a"⟩, by decide, rfl, rfl⟩
  · intro hmem
    obtain ⟨r, hr, h1, h2⟩ := ((claim_C8 [⟨2, 1, "a"⟩, ⟨2, 2, "a"⟩, ⟨2, 3, "a"⟩] 2).2 4).mp hmem
    simp only [List.mem_cons, List.not_mem_nil, or_false] at hr
    rcases hr with rfl | rfl | rfl <;> exact absurd h2 (by decide)
  · intro hs
    obtain ⟨r, hr, h1⟩ := ((claim_C8 [⟨2, 1, "a"⟩, ⟨2, 2, "a"⟩, ⟨2, 3, "a"⟩] 7).1).mp hs
    simp only [List.mem_cons, List.not_mem_nil, or_false] at hr
    rcases hr with rfl | rfl | rfl <;> exact absurd h1 (by decide)
